import Mathlib

/-!
Verification of the scriptTok pipeline (backend/tasks.py, backend/main.py,
backend/core/workers.py, backend/core/tiktok_audio_processor.py,
backend/core/tiktok_downloader.py, backend/core/gemini_client.py,
backend/core/utils.py) against its natural-language specification.

External collaborators (the Whisper transcription model, yt-dlp download,
the Apify scraper, the Gemini API, Python's `urllib.parse.urlparse`) are
modelled as oracle parameters: functions or `Except`-valued outcomes
supplied to the embedded code, where `Except.error msg` stands for a
raised Python exception with message `msg`.
-/

namespace ScriptTok

/-- The transcription dict returned by the Whisper collaborator
(`AudioTranscriber.transcribe`); only the `text` field is consumed by the
reducers. A Python `result.get('transcription')` truthiness test is
modelled as `Option.isSome` (the Whisper dict is non-empty whenever
present). -/
structure Transcription where
  text : String
  deriving DecidableEq, Repr

/-- The result dict produced by `process_video_worker`
(backend/core/workers.py). A missing dict key is `none`:
the success dict `{transcription, audio_file, original_url}` has
`error := none`, the error dict `{original_url, error, transcription: None}`
has `error := some msg`, `transcription := none`, `audio_file := none`. -/
structure WorkerDict where
  original_url : String
  error : Option String
  transcription : Option Transcription
  audio_file : Option String
  deriving DecidableEq, Repr

/-- `TikTokAudioProcessor.process_url`, filesystem effects elided
(see `process_url_fs` below for the effectful version):
download the audio, then transcribe it; a download failure aborts before
transcription; the returned pair is the `transcription` and `audio_file`
fields of the success dict. `download` and `transcribe` are the collaborator
oracles for this URL. -/
def process_url_result (download : Except String String)
    (transcribe : String → Except String Transcription)
    (keep_audio : Bool) : Except String (Option Transcription × Option String) :=
  match download with
  | .error e => .error e
  | .ok path =>
    match transcribe path with
    | .error e => .error e
    | .ok t => .ok (some t, if keep_audio then some path else none)

/-- `process_video_worker` (backend/core/workers.py). The line
`processor = TikTokAudioProcessor(model_name=model_name)` runs BEFORE the
`try:` block, so an exception raised while constructing the processor
(loading the model) propagates out of the worker; only exceptions raised
by `processor.process_url` are converted into the error dict.
`mkProcessor` is the outcome of the constructor. -/
def process_video_worker (mkProcessor : Except String Unit)
    (download : Except String String)
    (transcribe : String → Except String Transcription)
    (keep_audio : Bool) (url : String) : Except String WorkerDict :=
  match mkProcessor with
  | .error e => .error e
  | .ok _ =>
    match process_url_result download transcribe keep_audio with
    | .ok (t, af) =>
        .ok { original_url := url, error := none, transcription := t, audio_file := af }
    | .error e =>
        .ok { original_url := url, error := some e, transcription := none, audio_file := none }

/-- The result-gathering loop of `generate_script_task` (backend/tasks.py,
lines 59-63) and of `main` (backend/main.py): `future.result()` re-raises
an exception that escaped the worker, which aborts the loop (and the task);
otherwise every settled future contributes its dict. `settled` is the list
of worker outcomes in completion order. -/
def collect_results : List (Except String WorkerDict) → Except String (List WorkerDict)
  | [] => .ok []
  | .error e :: _ => .error e
  | .ok r :: rest => (collect_results rest).map (r :: ·)

/-- One work item of a batch: its URL together with the collaborator
behaviour (download and transcription oracles) for that URL. -/
structure ItemSpec where
  url : String
  download : Except String String
  transcribe : String → Except String Transcription

/-- The item fails during download or during transcription (the two
handled failure modes of `process_url`). -/
def itemFails (it : ItemSpec) : Bool :=
  match it.download with
  | .error _ => true
  | .ok path =>
    match it.transcribe path with
    | .error _ => true
    | .ok _ => false

/-- The worker outcome for one item of a batch whose model construction
succeeds in every worker process. -/
def itemOutcome (keep_audio : Bool) (it : ItemSpec) : Except String WorkerDict :=
  process_video_worker (.ok ()) it.download it.transcribe keep_audio it.url

/-- A result dict is error-tagged: it carries an `error` field and a null
`transcription`. -/
def isErrorTagged (r : WorkerDict) : Bool :=
  r.error.isSome && r.transcription == none

/-! ### `extract_script_contents` (backend/core/utils.py)

Character-level embedding of
`re.search(r'<script[^>]*>(.*?)</script>', html, re.DOTALL | re.IGNORECASE)`:
the leftmost start position wins; at a start position, `<script` matches
case-insensitively, `[^>]*>` deterministically consumes up to the first `>`,
and the lazy `(.*?)</script>` ends the interior at the first
case-insensitive occurrence of `</script>`; with `re.DOTALL`, `.` matches
newlines, so no character is excluded from the interior. -/

/-- Case-insensitive character equality (`re.IGNORECASE`). -/
def ciEq (a b : Char) : Bool := a.toLower == b.toLower

/-- Does `s` start with `pat`, case-insensitively? -/
def ciStartsWith : List Char → List Char → Bool
  | [], _ => true
  | _ :: _, [] => false
  | p :: ps, c :: cs => ciEq p c && ciStartsWith ps cs

/-- Split a string at its first `>` character: `[^>]*>` consumes exactly
the characters before the first `>` (none of them is `>`), then the `>`.
`none` when the string has no `>`. -/
def splitAtGt : List Char → Option (List Char × List Char)
  | [] => none
  | c :: cs =>
    if c = '>' then some ([], cs)
    else
      match splitAtGt cs with
      | some (a, b) => some (c :: a, b)
      | none => none

/-- First case-insensitive occurrence of `pat` in `s`:
returns `(before, matched, after)` with `s = before ++ matched ++ after`. -/
def findCI (pat : List Char) : List Char → Option (List Char × List Char × List Char)
  | [] => if ciStartsWith pat [] then some ([], [], []) else none
  | c :: cs =>
    if ciStartsWith pat (c :: cs) then
      some ([], (c :: cs).take pat.length, (c :: cs).drop pat.length)
    else
      (findCI pat cs).map (fun x => (c :: x.1, x.2.1, x.2.2))

/-- The search of `re.search(r'<script[^>]*>(.*?)</script>', ...)`:
scan start positions left to right; on success return
`(pre, openTag, interior, closeTag, post)` whose concatenation is the
input. -/
def findScriptBlock : List Char → Option (List Char × List Char × List Char × List Char × List Char)
  | [] => none
  | c :: cs =>
    if ciStartsWith "<script".toList (c :: cs) then
      match splitAtGt ((c :: cs).drop 7) with
      | some (attrs, afterOpen) =>
        match findCI "</script>".toList afterOpen with
        | some (interior, closeTag, post) =>
          some ([], (c :: cs).take 7 ++ attrs ++ ['>'], interior, closeTag, post)
        | none => (findScriptBlock cs).map (fun x => (c :: x.1, x.2))
      | none => (findScriptBlock cs).map (fun x => (c :: x.1, x.2))
    else (findScriptBlock cs).map (fun x => (c :: x.1, x.2))

/-- Remove trailing characters satisfying `p`. -/
def dropRightWhile (p : Char → Bool) (l : List Char) : List Char :=
  (l.reverse.dropWhile p).reverse

/-- Python's `str.strip()`: remove leading and trailing whitespace. -/
def pyStrip (l : List Char) : List Char :=
  dropRightWhile (fun c => c.isWhitespace) (l.dropWhile (fun c => c.isWhitespace))

/-- `extract_script_contents` (backend/core/utils.py): the stripped
interior of the first script block, or the input unchanged when the regex
does not match. -/
def extract_script_contents (html : String) : String :=
  match findScriptBlock html.toList with
  | some (_, _, interior, _, _) => String.mk (pyStrip interior)
  | none => html

/-! ### `GeminiClient.generate_text` (backend/core/gemini_client.py) -/

/-- A response object from the Gemini API collaborator. `block_reason` is
`some name` when `prompt_feedback.block_reason` is truthy (a non-zero
enum value with that name), `none` otherwise. -/
structure GenResponse where
  parts : List String
  block_reason : Option String
  text : String
  deriving DecidableEq, Repr

/-- `GeminiClient.generate_text`: `model` is the
`self.model.generate_content` collaborator (`.error` = raised exception).
Returns the result (`.error msg` = raised `GeminiError` with message
`msg`) paired with the list of prompts actually sent to the model.
The `GeminiError` raised for a blocked request is itself caught by the
surrounding `except Exception` and re-wrapped, hence the nested message. -/
def generate_text (model : String → Except String GenResponse)
    (user_prompt : String) : Except String String × List String :=
  if user_prompt = "" then (.ok "", [])
  else
    match model user_prompt with
    | .error e => (.error ("Gemini API call failed: " ++ e), [user_prompt])
    | .ok r =>
      if r.parts = [] then
        match r.block_reason with
        | some reason =>
            (.error ("Gemini API call failed: "
              ++ ("Request was blocked by the API. Reason: " ++ reason)), [user_prompt])
        | none => (.ok "The model returned an empty response.", [user_prompt])
      else (.ok r.text, [user_prompt])

/-! ### `generate_script_task` (backend/tasks.py) and its stage machine -/

/-- The Celery task states the job passes through: `PENDING` is Celery's
initial state; `SCRAPING`, `ANALYZING`, `GENERATING` are the custom states
set via `update_state`; `SUCCESS`/`FAILURE` are Celery's terminal states
(normal return / uncaught exception). -/
inductive Stage where
  | PENDING
  | SCRAPING
  | ANALYZING
  | GENERATING
  | SUCCESS
  | FAILURE
  deriving DecidableEq, Repr

/-- The error a failed task run surfaces: the `NoVideosFoundError` raised
for an empty scrape result, or any other exception. -/
inductive TaskError where
  | noVideosFound (profile_name : String)
  | other (msg : String)
  deriving DecidableEq, Repr

/-- The rendered message of `NoVideosFoundError`
(`f"{message} Profile: {profile_name}"`). -/
def noVideosFoundMessage (profile_name : String) : String :=
  "No videos found for the profile." ++ " Profile: " ++ profile_name

/-- The reduction of backend/tasks.py lines 61-63: one
`"[PAST_SCRIPT]:\n" + text` block per gathered result whose
`transcription` is truthy; error-tagged results are skipped silently. -/
def tasksReduce (rs : List WorkerDict) : List String :=
  rs.filterMap (fun r => r.transcription.map (fun t => "[PAST_SCRIPT]:\n" ++ t.text))

/-- One observable run of `generate_script_task`. `trace` is the sequence
of task states entered, `dispatched` the number of work items submitted to
the process pool, `outcome` the terminal payload. -/
structure TaskRun where
  trace : List Stage
  dispatched : Nat
  outcome : Except TaskError String
  deriving Repr

/-- `generate_script_task` (backend/tasks.py). Collaborator oracles:
`scrape` is `scrape_profile_videos` (each returned URL bundled with its
download/transcription behaviour), `settle` reorders the dispatched
futures into completion order (`as_completed`), `gen` is the composition
of `GeminiClient` construction and `generate_text` on the composed user
input (`.error` = raised exception). Workers run with
`keep_audio = False`. An uncaught exception is re-raised (line 77), which
Celery records as the `FAILURE` state. -/
def generate_script_task (profile_name topic : String)
    (scrape : Except String (List ItemSpec))
    (settle : List (Except String WorkerDict) → List (Except String WorkerDict))
    (gen : String → Except String String) : TaskRun :=
  match scrape with
  | .error e =>
      { trace := [.PENDING, .SCRAPING, .FAILURE], dispatched := 0,
        outcome := .error (.other e) }
  | .ok items =>
    if items.isEmpty then
      { trace := [.PENDING, .SCRAPING, .FAILURE], dispatched := 0,
        outcome := .error (.noVideosFound profile_name) }
    else
      match collect_results (settle (items.map (itemOutcome false))) with
      | .error e =>
          { trace := [.PENDING, .SCRAPING, .ANALYZING, .FAILURE],
            dispatched := items.length, outcome := .error (.other e) }
      | .ok rs =>
        let final_scripts_string := String.intercalate "\n\n" (tasksReduce rs)
        let user_input := final_scripts_string ++ "\n\n[NEW_TOPIC]:\n" ++ topic
        match gen user_input with
        | .error e =>
            { trace := [.PENDING, .SCRAPING, .ANALYZING, .GENERATING, .FAILURE],
              dispatched := items.length, outcome := .error (.other e) }
        | .ok g =>
            { trace := [.PENDING, .SCRAPING, .ANALYZING, .GENERATING, .SUCCESS],
              dispatched := items.length, outcome := .ok (extract_script_contents g) }

/-! ### The result loop of `main` (backend/main.py, lines 271-286) -/

/-- Python truthiness of `result.get('error')`: present and non-empty. -/
def errorTruthy (r : WorkerDict) : Bool :=
  match r.error with
  | some e => e != ""
  | none => false

/-- What one settled result contributes at completion position `i`
(`enumerate(as_completed(...), 1)`): skipped on a truthy `error`
(`continue`) and on a null `transcription` (the `result['transcription']
['text']` lookup raises `TypeError`, caught by the loop's
`except Exception`); otherwise the block
`f"[PAST_SCRIPT_{i}]:\n{text}"`. -/
def block_of (i : Nat) (r : WorkerDict) : Option String :=
  if errorTruthy r then none
  else r.transcription.map (fun t => "[PAST_SCRIPT_" ++ toString i ++ "]:\n" ++ t.text)

/-- The accumulation of `past_scripts_data` over the settled results in
completion order, with `i` the enumeration counter (starts at 1). Note
the counter advances on EVERY settled future, including skipped ones. -/
def collect_blocks (i : Nat) : List WorkerDict → List String
  | [] => []
  | r :: rest =>
    match block_of i r with
    | some b => b :: collect_blocks (i + 1) rest
    | none => collect_blocks (i + 1) rest

/-! ### `process_url` with filesystem effects
(backend/core/tiktok_audio_processor.py) -/

/-- Outcome of `downloader.download_audio` for one unit: the files it
wrote to disk before settling, and either the returned audio path or the
raised exception's message. -/
inductive DlOutcome where
  | ok (written : List String) (path : String)
  | err (written : List String) (msg : String)
  deriving DecidableEq, Repr

/-- `TikTokAudioProcessor.process_url` with the on-disk file set made
explicit (`fs` = files on disk before the call). `audio_path` is `None`
until `download_audio` returns, so the `finally:` block removes only the
path a SUCCESSFUL download returned — and only when it is truthy
(non-empty), `keep_audio` is false and the file exists; `removeOk = false`
models `os.remove` itself raising, which is caught and logged without
changing the result. -/
def process_url_fs (dl : DlOutcome) (transcribe : String → Except String Transcription)
    (keep_audio : Bool) (removeOk : Bool) (fs : List String) :
    Except String (Option Transcription × Option String) × List String :=
  match dl with
  | .err w msg => (.error msg, fs ++ w)
  | .ok w path =>
    let fs1 := fs ++ w
    let res : Except String (Option Transcription × Option String) :=
      match transcribe path with
      | .error e => .error e
      | .ok t => .ok (some t, if keep_audio then some path else none)
    let fs2 :=
      if path ≠ "" ∧ keep_audio = false ∧ path ∈ fs1 then
        if removeOk then fs1.filter (fun f => f ≠ path) else fs1
      else fs1
    (res, fs2)

/-! ### `TikTokDownloader.validate_url` / `download_audio`
(backend/core/tiktok_downloader.py) -/

/-- The domain allowlist of `validate_url`. -/
def validDomains : List String :=
  ["www.tiktok.com", "tiktok.com", "vm.tiktok.com", "m.tiktok.com"]

/-- `validate_url`: `parsed` is the outcome of the stdlib
`urlparse(url).netloc` collaborator (`.error` = `urlparse` raised, e.g.
`ValueError: Invalid IPv6 URL`); the `except Exception` branch returns
`False`, so the check is total. -/
def validate_url (parsed : Except String String) : Bool :=
  match parsed with
  | .ok netloc => decide (netloc ∈ validDomains)
  | .error _ => false

/-- A filesystem/network effect of `download_audio`. -/
inductive FsOp where
  | mkdtemp
  | mkdir (dir : String)
  | download (url : String)
  deriving DecidableEq, Repr

/-- `download_audio` with its effect trace: the URL-validation guard runs
first and raises `TikTokTranscriberError("Invalid TikTok URL provided")`
with no effect; only then is the output directory created (temp dir or
`mkdir(parents=True)`) and the download attempted. `rest` abstracts the
info-fetch effects and the overall result of the try-block (yt-dlp
download and file lookup); `ydl.download([url])` itself is always
attempted on this path (an info-fetch failure only falls back to the
default filename). -/
def download_audio (parsed : Except String String) (url : String)
    (output_dir : Option String) (rest : List FsOp × Except String String) :
    Except String String × List FsOp :=
  if validate_url parsed = false then (.error "Invalid TikTok URL provided", [])
  else
    let dirOp := match output_dir with | none => FsOp.mkdtemp | some d => FsOp.mkdir d
    (rest.2, dirOp :: rest.1 ++ [FsOp.download url])

theorem process_video_worker_ok (download : Except String String)
    (transcribe : String → Except String Transcription) (keep_audio : Bool) (url : String) :
    ∃ r, process_video_worker (.ok ()) download transcribe keep_audio url = .ok r := by
  cases hd : download with
  | error e =>
    exact ⟨{ original_url := url, error := some e, transcription := none, audio_file := none },
      by simp [process_video_worker, process_url_result]⟩
  | ok path =>
    cases ht : transcribe path with
    | error e =>
      exact ⟨{ original_url := url, error := some e, transcription := none, audio_file := none },
        by simp [process_video_worker, process_url_result, ht]⟩
    | ok t =>
      exact ⟨{ original_url := url, error := none, transcription := some t,
               audio_file := if keep_audio then some path else none },
        by simp [process_video_worker, process_url_result, ht]⟩

theorem itemOutcome_errorTagged (keep_audio : Bool) (it : ItemSpec) :
    ∃ r, itemOutcome keep_audio it = .ok r ∧ isErrorTagged r = itemFails it := by
  cases hd : it.download with
  | error e =>
    exact ⟨{ original_url := it.url, error := some e, transcription := none, audio_file := none },
      by simp [itemOutcome, process_video_worker, process_url_result, hd],
      by simp [isErrorTagged, itemFails, hd]⟩
  | ok path =>
    cases ht : it.transcribe path with
    | error e =>
      exact ⟨{ original_url := it.url, error := some e, transcription := none, audio_file := none },
        by simp [itemOutcome, process_video_worker, process_url_result, hd, ht],
        by simp [isErrorTagged, itemFails, hd, ht]⟩
    | ok t =>
      exact ⟨{ original_url := it.url, error := none, transcription := some t,
               audio_file := if keep_audio then some path else none },
        by simp [itemOutcome, process_video_worker, process_url_result, hd, ht],
        by simp [isErrorTagged, itemFails, hd, ht]⟩

/-- If every settled future holds a dict (no worker raised), the gathering
loop returns them all, in order. -/
theorem collect_results_all_ok (settled : List (Except String WorkerDict))
    (h : ∀ x ∈ settled, ∃ r, x = .ok r) :
    collect_results settled = .ok (settled.filterMap Except.toOption) := by
  induction settled with
  | nil => rfl
  | cons x rest ih =>
    obtain ⟨r, hr⟩ := h x (List.mem_cons_self x rest)
    subst hr
    simp only [collect_results, List.filterMap_cons]
    rw [ih (fun y hy => h y (List.mem_cons_of_mem _ hy))]
    rfl

theorem itemOutcome_ok_tag (keep_audio : Bool) (it : ItemSpec) (r : WorkerDict)
    (h : itemOutcome keep_audio it = .ok r) : isErrorTagged r = itemFails it := by
  obtain ⟨r', hr', ht'⟩ := itemOutcome_errorTagged keep_audio it
  rw [h] at hr'
  cases hr'
  exact ht'

theorem countP_collected (keep_audio : Bool) (items : List ItemSpec)
    (settled : List (Except String WorkerDict))
    (hperm : settled.Perm (items.map (itemOutcome keep_audio)))
    (p : WorkerDict → Bool) (q : ItemSpec → Bool)
    (hpq : ∀ it r, itemOutcome keep_audio it = .ok r → p r = q it) :
    (settled.filterMap Except.toOption).countP p = items.countP q := by
  rw [List.countP_filterMap, hperm.countP_eq, List.countP_map]
  apply List.countP_congr
  intro it _
  obtain ⟨r, hr, _⟩ := itemOutcome_errorTagged keep_audio it
  simp [Function.comp, hr, Except.toOption, hpq it r hr]

/-- C1: for every batch of N submitted work items of which K fail during
download or transcription, the per-item results gathered by the batch loop
form a list of exactly N entries, of which exactly K are error-tagged
(`error` field present, `transcription` null) and N-K are success results;
no per-item failure removes an entry or aborts the batch (the gathering
loop returns `.ok`, never `.error`). `settled` is the results in
completion order, any permutation of the submitted items' outcomes. -/
theorem C1_batch_collects_all (items : List ItemSpec) (keep_audio : Bool)
    (settled : List (Except String WorkerDict))
    (hperm : settled.Perm (items.map (itemOutcome keep_audio))) :
    ∃ rs, collect_results settled = .ok rs ∧
      rs.length = items.length ∧
      rs.countP isErrorTagged = items.countP itemFails ∧
      rs.countP (fun r => !(isErrorTagged r)) = items.length - items.countP itemFails := by
  have hok : ∀ x ∈ settled, ∃ r, x = .ok r := by
    intro x hx
    have hx' := hperm.mem_iff.mp hx
    obtain ⟨it, _, rfl⟩ := List.mem_map.mp hx'
    obtain ⟨r, hr, _⟩ := itemOutcome_errorTagged keep_audio it
    exact ⟨r, hr⟩
  refine ⟨settled.filterMap Except.toOption, collect_results_all_ok settled hok, ?_, ?_, ?_⟩
  · have h := countP_collected keep_audio items settled hperm (fun _ => true) (fun _ => true)
      (fun _ _ _ => rfl)
    have h1 : (settled.filterMap Except.toOption).countP (fun _ => true)
        = (settled.filterMap Except.toOption).length := by
      rw [← List.countP_true]
    have h2 : items.countP (fun _ => true) = items.length := by
      rw [← List.countP_true]
    rw [← h1, h, h2]
  · exact countP_collected keep_audio items settled hperm isErrorTagged itemFails
      (itemOutcome_ok_tag keep_audio)
  · have h := countP_collected keep_audio items settled hperm
      (fun r => !(isErrorTagged r)) (fun it => !(itemFails it))
      (fun it r hr => by simp only []; rw [itemOutcome_ok_tag keep_audio it r hr])
    rw [h]
    have hlen := List.length_eq_countP_add_countP itemFails items
    have hcong : items.countP (fun a => decide ¬(itemFails a = true))
        = items.countP (fun it => !(itemFails it)) := by
      apply List.countP_congr
      intro x _
      cases hx : itemFails x <;> simp [hx]
    omega

/-- Witness for C1 at a concrete two-item batch, one download failure,
settled in reverse completion order. -/
theorem C1_batch_collects_all_witness :
    ∃ rs, collect_results
        ([⟨"u1", .ok "f1.wav", fun _ => .ok ⟨"A"⟩⟩,
          ⟨"u2", Except.error "download failed", fun _ => .ok ⟨"B"⟩⟩].map
            (itemOutcome false)).reverse = .ok rs ∧
      rs.length = 2 ∧
      rs.countP isErrorTagged = 1 ∧
      rs.countP (fun r => !(isErrorTagged r)) = 2 - 1 := by
  have h := C1_batch_collects_all
    [⟨"u1", .ok "f1.wav", fun _ => .ok ⟨"A"⟩⟩,
     ⟨"u2", Except.error "download failed", fun _ => .ok ⟨"B"⟩⟩] false
    (([⟨"u1", .ok "f1.wav", fun _ => .ok ⟨"A"⟩⟩,
       ⟨"u2", Except.error "download failed", fun _ => .ok ⟨"B"⟩⟩].map
        (itemOutcome false)).reverse)
    (List.reverse_perm _)
  obtain ⟨rs, h1, h2, h3, h4⟩ := h
  refine ⟨rs, h1, by simpa using h2, ?_, by simpa using h4⟩
  have : List.countP itemFails
      [(⟨"u1", .ok "f1.wav", fun _ => .ok ⟨"A"⟩⟩ : ItemSpec),
       ⟨"u2", Except.error "download failed", fun _ => .ok ⟨"B"⟩⟩] = 1 := by
    simp [List.countP, List.countP.go, itemFails]
  rw [h3, this]

/-- C3 counterexample: a work unit whose worker-side processor
construction (model loading) raises does NOT settle as an error-tagged
result: the exception propagates out of `process_video_worker` (the
constructor runs before the `try:` block), and `future.result()` then
re-raises it inside the gathering loop, aborting the batch and discarding
the sibling unit's successful result. -/
theorem C3_constructor_exception_propagates :
    process_video_worker (Except.error "failed to load model")
        (.ok "f.wav") (fun _ => .ok ⟨"A"⟩) false "u1"
      = Except.error "failed to load model" ∧
    collect_results
        [process_video_worker (Except.error "failed to load model")
           (.ok "f.wav") (fun _ => .ok ⟨"A"⟩) false "u1",
         itemOutcome false ⟨"u2", .ok "f2.wav", fun _ => .ok ⟨"B"⟩⟩]
      = Except.error "failed to load model" :=
  ⟨rfl, rfl⟩

/-- C3 (amended): once the per-worker processor has been constructed
successfully, any exception raised while executing the unit
(`process_url`: download, transcription, cleanup) is converted into an
error-tagged result for that item instead of propagating; exceptions
raised while constructing the processor itself, however, propagate (see
the counterexample). -/
theorem C3_process_exception_converted (download : Except String String)
    (transcribe : String → Except String Transcription) (keep_audio : Bool)
    (url e : String)
    (h : process_url_result download transcribe keep_audio = .error e) :
    process_video_worker (.ok ()) download transcribe keep_audio url =
      .ok { original_url := url, error := some e, transcription := none, audio_file := none } := by
  simp [process_video_worker, h]

/-- Witness for C3's amended theorem: a concrete transcription failure is
converted into the error dict. -/
theorem C3_process_exception_converted_witness :
    process_video_worker (.ok ()) (.ok "f.wav") (fun _ => Except.error "whisper crashed")
        false "u1" =
      .ok { original_url := "u1", error := some "whisper crashed",
            transcription := none, audio_file := none } :=
  C3_process_exception_converted (.ok "f.wav") (fun _ => Except.error "whisper crashed")
    false "u1" "whisper crashed" rfl

theorem ciStartsWith_length (pat s : List Char) (h : ciStartsWith pat s = true) :
    pat.length ≤ s.length := by
  induction pat generalizing s with
  | nil => simp
  | cons p ps ih =>
    cases s with
    | nil => simp [ciStartsWith] at h
    | cons c cs =>
      simp only [ciStartsWith, Bool.and_eq_true] at h
      simpa using ih cs h.2

theorem splitAtGt_eq (s : List Char) (a b : List Char)
    (h : splitAtGt s = some (a, b)) : s = a ++ '>' :: b := by
  induction s generalizing a b with
  | nil => simp [splitAtGt] at h
  | cons c cs ih =>
    by_cases hc : c = '>'
    · subst hc
      simp [splitAtGt] at h
      obtain ⟨rfl, rfl⟩ := h
      simp
    · simp [splitAtGt, hc] at h
      match hrec : splitAtGt cs with
      | none => rw [hrec] at h; simp at h
      | some (a', b') =>
        rw [hrec] at h
        simp at h
        obtain ⟨rfl, rfl⟩ := h
        simp [ih a' b' hrec]

theorem findCI_eq (pat : List Char) (s : List Char)
    (x : List Char × List Char × List Char) (h : findCI pat s = some x) :
    s = x.1 ++ x.2.1 ++ x.2.2 := by
  induction s generalizing x with
  | nil =>
    by_cases hp : ciStartsWith pat [] = true
    · simp [findCI, hp] at h
      subst h
      rfl
    · simp [findCI, hp] at h
  | cons c cs ih =>
    by_cases hp : ciStartsWith pat (c :: cs) = true
    · simp [findCI, hp] at h
      subst h
      simp
    · simp only [findCI, if_neg hp, Option.map_eq_some'] at h
      obtain ⟨y, hy, rfl⟩ := h
      simpa using congrArg (c :: ·) (ih y hy)

theorem findScriptBlock_eq (s : List Char)
    (x : List Char × List Char × List Char × List Char × List Char)
    (h : findScriptBlock s = some x) :
    s = x.1 ++ x.2.1 ++ x.2.2.1 ++ x.2.2.2.1 ++ x.2.2.2.2 := by
  induction s generalizing x with
  | nil => simp [findScriptBlock] at h
  | cons c cs ih =>
    by_cases hp : ciStartsWith "<script".toList (c :: cs) = true
    · rcases hgt : splitAtGt ((c :: cs).drop 7) with _ | ⟨attrs, afterOpen⟩
      · simp only [findScriptBlock, if_pos hp, hgt, Option.map_eq_some'] at h
        obtain ⟨y, hy, rfl⟩ := h
        simpa using congrArg (c :: ·) (ih y hy)
      · rcases hci : findCI "</script>".toList afterOpen with _ | ⟨interior, closeTag, post⟩
        · simp only [findScriptBlock, if_pos hp, hgt, hci, Option.map_eq_some'] at h
          obtain ⟨y, hy, rfl⟩ := h
          simpa using congrArg (c :: ·) (ih y hy)
        · simp only [findScriptBlock, if_pos hp, hgt, hci, Option.some.injEq] at h
          subst h
          have h1 : (c :: cs).drop 7 = attrs ++ '>' :: afterOpen := splitAtGt_eq _ _ _ hgt
          have h2 : afterOpen = interior ++ closeTag ++ post := by
            simpa using findCI_eq _ afterOpen (interior, closeTag, post) hci
          have h3 : (c :: cs).take 7 ++ (c :: cs).drop 7 = c :: cs := List.take_append_drop _ _
          have hlen : 6 ≤ cs.length := by
            have := ciStartsWith_length _ _ hp
            simpa using this
          simp only []
          rw [← h3, h1, h2]
          simp
          rw [List.take_left' (by rw [List.length_take]; omega)]
    · simp only [findScriptBlock, if_neg hp, Option.map_eq_some'] at h
      obtain ⟨y, hy, rfl⟩ := h
      simpa using congrArg (c :: ·) (ih y hy)

theorem pyStrip_infix (l : List Char) : ∃ u v, l = u ++ pyStrip l ++ v := by
  set p : Char → Bool := fun c => c.isWhitespace with hp
  refine ⟨l.takeWhile p, ((l.dropWhile p).reverse.takeWhile p).reverse, ?_⟩
  have h1 : l.takeWhile p ++ l.dropWhile p = l := List.takeWhile_append_dropWhile p l
  have h2 : (l.dropWhile p).reverse.takeWhile p ++ (l.dropWhile p).reverse.dropWhile p
      = (l.dropWhile p).reverse := List.takeWhile_append_dropWhile p _
  have h3 : l.dropWhile p
      = ((l.dropWhile p).reverse.dropWhile p).reverse
        ++ ((l.dropWhile p).reverse.takeWhile p).reverse := by
    conv_lhs => rw [← List.reverse_reverse (l.dropWhile p), ← h2]
    rw [List.reverse_append]
  calc l = l.takeWhile p ++ l.dropWhile p := h1.symm
    _ = l.takeWhile p ++ (((l.dropWhile p).reverse.dropWhile p).reverse
          ++ ((l.dropWhile p).reverse.takeWhile p).reverse) := by rw [← h3]
    _ = l.takeWhile p ++ pyStrip l ++ ((l.dropWhile p).reverse.takeWhile p).reverse := by
          simp [pyStrip, dropRightWhile, hp]

/-- C6: `extract_script_contents` is total and, when the input contains a
script block, returns exactly the stripped interior of the (first) matched
block — in particular content only from inside the block — and when the
input contains no block, returns the input unchanged. -/
theorem C6_extract_script_block (html : String) :
    (findScriptBlock html.toList = none → extract_script_contents html = html) ∧
    (∀ pre op int cl post,
      findScriptBlock html.toList = some (pre, op, int, cl, post) →
        html.toList = pre ++ op ++ int ++ cl ++ post ∧
        extract_script_contents html = String.mk (pyStrip int) ∧
        ∃ u v, int = u ++ pyStrip int ++ v) := by
  constructor
  · intro h
    have h' : findScriptBlock html.data = none := h
    simp [extract_script_contents, h']
  · intro pre op int cl post h
    refine ⟨?_, ?_, pyStrip_infix int⟩
    · simpa using findScriptBlock_eq html.toList (pre, op, int, cl, post) h
    · have h' : findScriptBlock html.data = some (pre, op, int, cl, post) := h
      simp [extract_script_contents, h']

/-- Witness for C6 at a concrete mixed-case input with a script block, and
at an input with none. -/
theorem C6_extract_script_block_witness :
    extract_script_contents "plain text, no block" = "plain text, no block" ∧
    ("a<SCRIPT x>\n hi \n</script>b").toList
      = "a".toList ++ "<SCRIPT x>".toList ++ "\n hi \n".toList
        ++ "</script>".toList ++ "b".toList ∧
    extract_script_contents "a<SCRIPT x>\n hi \n</script>b"
      = String.mk (pyStrip "\n hi \n".toList) ∧
    (∃ u v, "\n hi \n".toList = u ++ pyStrip "\n hi \n".toList ++ v) := by
  refine ⟨(C6_extract_script_block "plain text, no block").1 (by decide), ?_⟩
  have h := (C6_extract_script_block "a<SCRIPT x>\n hi \n</script>b").2
    "a".toList "<SCRIPT x>".toList "\n hi \n".toList "</script>".toList "b".toList
    (by decide)
  exact h

/-- C2: every run of `generate_script_task` passes through a sequence of
task states that is a subsequence of
`PENDING, SCRAPING, ANALYZING, GENERATING, {SUCCESS | FAILURE}` in that
order — the stage never regresses — and the terminal state is the last
entry of the trace (no stage change after it). -/
theorem C2_stage_forward_order (profile_name topic : String)
    (scrape : Except String (List ItemSpec))
    (settle : List (Except String WorkerDict) → List (Except String WorkerDict))
    (gen : String → Except String String) :
    ∃ t, (t = Stage.SUCCESS ∨ t = Stage.FAILURE) ∧
      (generate_script_task profile_name topic scrape settle gen).trace.Sublist
        [Stage.PENDING, Stage.SCRAPING, Stage.ANALYZING, Stage.GENERATING, t] ∧
      (generate_script_task profile_name topic scrape settle gen).trace.getLast?
        = some t := by
  unfold generate_script_task
  cases scrape with
  | error e =>
    refine ⟨.FAILURE, .inr rfl, ?_, rfl⟩
    dsimp only
    decide
  | ok items =>
    by_cases he : items.isEmpty
    · simp only [if_pos he]
      refine ⟨.FAILURE, .inr rfl, ?_, rfl⟩
      dsimp only
      decide
    · simp only [if_neg he]
      cases hc : collect_results (settle (items.map (itemOutcome false))) with
      | error e =>
        refine ⟨.FAILURE, .inr rfl, ?_, rfl⟩
        dsimp only
        decide
      | ok rs =>
        cases hg : gen (String.intercalate "\n\n" (tasksReduce rs)
            ++ "\n\n[NEW_TOPIC]:\n" ++ topic) with
        | error e =>
          simp only [hg]
          refine ⟨.FAILURE, .inr rfl, ?_, rfl⟩
          dsimp only
          decide
        | ok g =>
          simp only [hg]
          refine ⟨.SUCCESS, .inl rfl, ?_, rfl⟩
          dsimp only
          decide

/-- C4: a job whose profile scrape returns an empty URL list terminates in
`FAILURE` carrying the `NoVideosFoundError` for that profile (whose
rendered message names the profile); the `ANALYZING` state is never
entered and no work item is dispatched to the pool. -/
theorem C4_empty_scrape_fails (profile_name topic : String)
    (settle : List (Except String WorkerDict) → List (Except String WorkerDict))
    (gen : String → Except String String) :
    (generate_script_task profile_name topic (.ok []) settle gen).outcome
        = .error (.noVideosFound profile_name) ∧
    (generate_script_task profile_name topic (.ok []) settle gen).trace
        = [Stage.PENDING, Stage.SCRAPING, Stage.FAILURE] ∧
    Stage.ANALYZING ∉ (generate_script_task profile_name topic (.ok []) settle gen).trace ∧
    (generate_script_task profile_name topic (.ok []) settle gen).dispatched = 0 ∧
    ∃ pre, noVideosFoundMessage profile_name = pre ++ profile_name := by
  refine ⟨rfl, rfl, ?_, rfl,
    "No videos found for the profile." ++ " Profile: ", rfl⟩
  rw [show (generate_script_task profile_name topic (.ok []) settle gen).trace
      = [Stage.PENDING, Stage.SCRAPING, Stage.FAILURE] from rfl]
  decide

/-- C7 counterexample: on provider-side content suppression (a response
with no parts and no block reason) `generate_text` does not return the
empty string — it substitutes the fixed placeholder payload
`"The model returned an empty response."`. -/
theorem C7_suppression_not_empty_string :
    (generate_text
        (fun _ => .ok { parts := [], block_reason := none, text := "ignored" })
        "prompt").1 = .ok "The model returned an empty response." ∧
    (generate_text
        (fun _ => .ok { parts := [], block_reason := none, text := "ignored" })
        "prompt").1 ≠ .ok "" := by
  refine ⟨rfl, ?_⟩
  intro h
  have h' : ("The model returned an empty response." : String) = "" := Except.ok.inj h
  exact absurd h' (by decide)

/-- C7 (amended): on provider-side content suppression (no parts, no
block reason) `generate_text` succeeds — it does not raise a
`GeminiError`-class exception — but its payload is the fixed placeholder
string `"The model returned an empty response."`, not the empty string. -/
theorem C7_suppressed_response_placeholder
    (model : String → Except String GenResponse) (p : String) (r : GenResponse)
    (hp : p ≠ "") (hm : model p = .ok r)
    (hparts : r.parts = []) (hblock : r.block_reason = none) :
    generate_text model p = (.ok "The model returned an empty response.", [p]) := by
  simp [generate_text, hp, hm, hparts, hblock]

/-- Witness for C7's amended theorem at a concrete suppressed response. -/
theorem C7_suppressed_response_placeholder_witness :
    generate_text (fun _ => .ok { parts := [], block_reason := none, text := "ignored" })
        "prompt"
      = (.ok "The model returned an empty response.", ["prompt"]) :=
  C7_suppressed_response_placeholder _ "prompt"
    { parts := [], block_reason := none, text := "ignored" }
    (by decide) rfl rfl rfl

/-- C9: called with an empty user prompt, `generate_text` returns the
empty string without invoking the generation model (no prompt is sent)
and without raising; for every non-empty prompt the model is invoked
exactly once, with that prompt. -/
theorem C9_empty_prompt_short_circuits
    (model : String → Except String GenResponse) (p : String) :
    (p = "" → generate_text model p = (.ok "", [])) ∧
    (p ≠ "" → (generate_text model p).2 = [p]) := by
  constructor
  · intro h
    subst h
    rfl
  · intro h
    simp only [generate_text, if_neg h]
    cases hm : model p with
    | error e => rfl
    | ok r =>
      by_cases hpr : r.parts = []
      · cases hb : r.block_reason <;> simp [hpr, hb]
      · simp [hpr]

/-- Witness for C9 at a concrete model, with an empty and a non-empty
prompt. -/
theorem C9_empty_prompt_short_circuits_witness :
    generate_text (fun _ => .ok { parts := ["x"], block_reason := none, text := "out" }) ""
        = (.ok "", []) ∧
    (generate_text (fun _ => .ok { parts := ["x"], block_reason := none, text := "out" })
        "hi").2 = ["hi"] :=
  ⟨(C9_empty_prompt_short_circuits _ "").1 rfl,
   (C9_empty_prompt_short_circuits _ "hi").2 (by decide)⟩

/-- C5 counterexample: for the batch whose results settle in the order
(success "A", failure, success "C"), the corpus blocks are tagged
`[PAST_SCRIPT_1]` and `[PAST_SCRIPT_3]` — the numeric suffix counts ALL
settled units, so the failed unit leaves a gap and no `[PAST_SCRIPT_2]`
block exists, contrary to the claimed numbering by success order. -/
theorem C5_failed_unit_leaves_gap :
    collect_blocks 1
        [{ original_url := "u1", error := none,
           transcription := some ⟨"A"⟩, audio_file := none },
         { original_url := "u2", error := some "download failed",
           transcription := none, audio_file := none },
         { original_url := "u3", error := none,
           transcription := some ⟨"C"⟩, audio_file := none }]
      = ["[PAST_SCRIPT_1]:\nA", "[PAST_SCRIPT_3]:\nC"] ∧
    "[PAST_SCRIPT_2]:\nC" ∉ collect_blocks 1
        [{ original_url := "u1", error := none,
           transcription := some ⟨"A"⟩, audio_file := none },
         { original_url := "u2", error := some "download failed",
           transcription := none, audio_file := none },
         { original_url := "u3", error := none,
           transcription := some ⟨"C"⟩, audio_file := none }] := by
  refine ⟨rfl, ?_⟩
  decide

/-- C5 (amended): the corpus contains exactly one block per successful
settled unit (failed units contribute nothing and are skipped silently),
and each block's numeric suffix is the unit's 1-based position in the
settle order counted over ALL settled units — a failure consumes a
position, leaving a gap in the numbering, rather than the suffix counting
successes only. -/
theorem C5_blocks_by_settle_position (settled : List WorkerDict) (i : Nat) :
    (∀ b, b ∈ collect_blocks i settled ↔
      ∃ k r, settled[k]? = some r ∧ block_of (i + k) r = some b) ∧
    (collect_blocks i settled).length
      = settled.countP (fun r => !(errorTruthy r) && r.transcription.isSome) := by
  induction settled generalizing i with
  | nil =>
    refine ⟨fun b => ?_, ?_⟩
    · simp [collect_blocks]
    · simp [collect_blocks]
  | cons r rest ih =>
    refine ⟨fun b => ?_, ?_⟩
    · constructor
      · intro hm
        cases hb : block_of i r with
        | some b' =>
          simp only [collect_blocks, hb] at hm
          rcases List.mem_cons.mp hm with h | h
          · refine ⟨0, r, by simp, ?_⟩
            rw [Nat.add_zero, hb, h]
          · obtain ⟨k, r', h1, h2⟩ := ((ih (i + 1)).1 b).mp h
            refine ⟨k + 1, r', by simpa using h1, ?_⟩
            rw [show i + (k + 1) = i + 1 + k from by omega]
            exact h2
        | none =>
          simp only [collect_blocks, hb] at hm
          obtain ⟨k, r', h1, h2⟩ := ((ih (i + 1)).1 b).mp hm
          refine ⟨k + 1, r', by simpa using h1, ?_⟩
          rw [show i + (k + 1) = i + 1 + k from by omega]
          exact h2
      · rintro ⟨k, r', h1, h2⟩
        cases k with
        | zero =>
          rw [List.getElem?_cons_zero] at h1
          injection h1 with h1
          subst h1
          rw [Nat.add_zero] at h2
          simp only [collect_blocks, h2]
          exact List.mem_cons_self _ _
        | succ k' =>
          rw [List.getElem?_cons_succ] at h1
          have h2' : block_of (i + 1 + k') r' = some b := by
            rw [show i + 1 + k' = i + (k' + 1) from by omega]
            exact h2
          have hmem := ((ih (i + 1)).1 b).mpr ⟨k', r', h1, h2'⟩
          cases hb : block_of i r with
          | some b' =>
            simp only [collect_blocks, hb]
            exact List.mem_cons_of_mem _ hmem
          | none =>
            simp only [collect_blocks, hb]
            exact hmem
    · cases hb : block_of i r with
      | some b' =>
        simp only [collect_blocks, hb, List.length_cons, (ih (i + 1)).2, List.countP_cons]
        have hc : (!(errorTruthy r) && r.transcription.isSome) = true := by
          by_cases he : errorTruthy r
          · simp [block_of, he] at hb
          · cases ht : r.transcription with
            | none => simp [block_of, he, ht] at hb
            | some t => simp [he, ht]
        rw [hc]
        simp
      | none =>
        simp only [collect_blocks, hb, (ih (i + 1)).2, List.countP_cons]
        have hc : (!(errorTruthy r) && r.transcription.isSome) = false := by
          by_cases he : errorTruthy r
          · simp [he]
          · cases ht : r.transcription with
            | none => simp [ht]
            | some t => simp [block_of, he, ht] at hb
        rw [hc]
        simp

/-- C8 counterexample: a unit whose download fails after partially
writing a file, run with the retain flag false, leaves that file on disk
after the unit settles — `audio_path` is still `None` when the exception
propagates, so the `finally:` cleanup removes nothing. -/
theorem C8_partial_download_file_remains :
    (process_url_fs (.err ["output/partial.wav"] "download failed")
        (fun _ => .ok ⟨"A"⟩) false true []).2 = ["output/partial.wav"] ∧
    "output/partial.wav" ∈ (process_url_fs (.err ["output/partial.wav"] "download failed")
        (fun _ => .ok ⟨"A"⟩) false true []).2 := by
  refine ⟨rfl, ?_⟩
  decide

/-- C8 (amended): with the retain flag false, the audio path returned by a
SUCCESSFUL download does not remain on disk after the unit settles, on
both remaining exit paths (transcription success and transcription
failure — `transcribe` is arbitrary); and a failure of the deletion
itself (`removeOk = false`) leaves the unit's result unchanged and raises
nothing. Files partially written by a FAILED download, however, are not
cleaned up (see the counterexample). -/
theorem C8_successful_download_cleaned (w : List String) (path : String)
    (transcribe : String → Except String Transcription) (fs : List String)
    (removeOk : Bool) (hpath : path ≠ "") :
    path ∉ (process_url_fs (.ok w path) transcribe false true fs).2 ∧
    (process_url_fs (.ok w path) transcribe false removeOk fs).1
      = (process_url_fs (.ok w path) transcribe false true fs).1 := by
  constructor
  · by_cases hm : path ∈ fs ++ w
    · simp only [process_url_fs]
      rw [if_pos ⟨hpath, by simpa using hm⟩]
      simp [List.mem_filter]
    · simp only [process_url_fs]
      rw [if_neg (fun hc => hm (by simpa using hc.2))]
      exact hm
  · rfl

/-- Witness for C8's amended theorem at a concrete unit whose
transcription fails and whose deletion fails. -/
theorem C8_successful_download_cleaned_witness :
    "d/a.wav" ∉ (process_url_fs (.ok ["d/a.wav"] "d/a.wav")
        (fun _ => Except.error "whisper crashed") false true []).2 ∧
    (process_url_fs (.ok ["d/a.wav"] "d/a.wav")
        (fun _ => Except.error "whisper crashed") false false []).1
      = (process_url_fs (.ok ["d/a.wav"] "d/a.wav")
          (fun _ => Except.error "whisper crashed") false true []).1 :=
  C8_successful_download_cleaned ["d/a.wav"] "d/a.wav"
    (fun _ => Except.error "whisper crashed") [] false (by decide)

/-- C10: for every URL whose parsed host is not among
`www.tiktok.com, tiktok.com, vm.tiktok.com, m.tiktok.com` — including
every URL on which `urlparse` raises, for which `validate_url` totally
returns `False` instead of raising — `download_audio` raises
`TikTokTranscriberError("Invalid TikTok URL provided")` before creating
any output directory or attempting any download: its effect trace is
empty. -/
theorem C10_invalid_url_no_effect (parsed : Except String String) (url : String)
    (output_dir : Option String) (rest : List FsOp × Except String String)
    (h : ∀ n, parsed = .ok n → n ∉ validDomains) :
    validate_url parsed = false ∧
    download_audio parsed url output_dir rest
      = (.error "Invalid TikTok URL provided", []) := by
  have hv : validate_url parsed = false := by
    cases parsed with
    | error e => rfl
    | ok n => simpa [validate_url] using h n rfl
  exact ⟨hv, by simp [download_audio, hv]⟩

/-- Witness for C10 at a non-TikTok host and at a malformed URL on which
`urlparse` raises. -/
theorem C10_invalid_url_no_effect_witness :
    (validate_url (.ok "example.com") = false ∧
      download_audio (.ok "example.com") "https://example.com/v" none
          ([FsOp.download "https://example.com/v"], .ok "f.wav")
        = (.error "Invalid TikTok URL provided", [])) ∧
    (validate_url (Except.error "Invalid IPv6 URL") = false ∧
      download_audio (Except.error "Invalid IPv6 URL") "https://[" (some "output")
          ([FsOp.download "https://["], .ok "f.wav")
        = (.error "Invalid TikTok URL provided", [])) :=
  ⟨C10_invalid_url_no_effect (.ok "example.com") "https://example.com/v" none
      ([FsOp.download "https://example.com/v"], .ok "f.wav")
      (by intro n hn; injection hn with hn; subst hn; decide),
   C10_invalid_url_no_effect (Except.error "Invalid IPv6 URL") "https://[" (some "output")
      ([FsOp.download "https://["], .ok "f.wav")
      (by intro n hn; cases hn)⟩

end ScriptTok
